import Mathlib

/-!
Shallow embedding of `src/app.py` (InvoiceSwift).

The program fetches a WooCommerce order, derives invoice figures
(per-line CGST/SGST tax, aggregate totals, a rounding reconciliation
against the provider-reported total) and a currency-in-words field,
and renders a PDF.  Monetary values, handled as Python floats in the
source, are modelled as exact rationals (`ℚ`); Python's banker's
rounding `round` is modelled by `rhe` below.  Strings are Lean
`String`s; Python `str.strip`, `str.capitalize` and `str.join` are
modelled by `pystrip`, `pycap` and `pyjoin`.
-/

namespace InvoiceSwift

/-- Python `round(x)`: round half to even (banker's rounding), on exact
rationals. -/
def rhe (x : ℚ) : ℤ :=
  let f : ℤ := ⌊x⌋
  let r : ℚ := x - (f : ℚ)
  if r < 1/2 then f
  else if 1/2 < r then f + 1
  else if f % 2 = 0 then f else f + 1

/-- Python `round(x, 2)`: round to 2 decimal digits. -/
def round2 (x : ℚ) : ℚ := ((rhe (x * 100) : ℤ) : ℚ) / 100

/-- Python `str.strip()`: drop leading and trailing whitespace. -/
def pystrip (s : String) : String :=
  String.mk (((s.data.dropWhile Char.isWhitespace).reverse.dropWhile
    Char.isWhitespace).reverse)

/-- Python `str.capitalize()`: first character upper-cased, the rest
lower-cased. -/
def pycap (s : String) : String :=
  match s.data with
  | [] => ""
  | c :: cs => String.mk (c.toUpper :: cs.map Char.toLower)

/-- Python `sep.join(l)`. -/
def pyjoin (sep : String) : List String → String
  | [] => ""
  | [x] => x
  | x :: y :: xs => x ++ sep ++ pyjoin sep (y :: xs)

/-! ### `number_to_words` (src/app.py lines 26-81) -/

def units : List String :=
  ["", "one", "two", "three", "four", "five", "six", "seven", "eight", "nine"]

def teens : List String :=
  ["ten", "eleven", "twelve", "thirteen", "fourteen", "fifteen",
   "sixteen", "seventeen", "eighteen", "nineteen"]

def tens : List String :=
  ["", "", "twenty", "thirty", "forty", "fifty",
   "sixty", "seventy", "eighty", "ninety"]

/-- `get_unit_word` (src/app.py lines 30-44): words for a group value in
0-99; anything outside that range yields the empty string.  Python `//`
and `%` are floor-division and floor-modulus, i.e. `Int.fdiv`/`Int.emod`
for the positive divisors used here. -/
def get_unit_word (n : ℤ) : String :=
  if 0 ≤ n ∧ n < 10 then units.getD n.toNat ""
  else if 10 ≤ n ∧ n < 20 then teens.getD (n - 10).toNat ""
  else if 20 ≤ n ∧ n < 100 then
    tens.getD (n.fdiv 10).toNat ""
      ++ (if n % 10 ≠ 0 then " " ++ units.getD (n % 10).toNat "" else "")
  else ""

/-- The `in_words` list built by `get_full_word` (src/app.py lines 50-67):
lakh/thousand/hundred groups in order, the literal `"and"` inserted before
a non-zero final remainder when any higher group was non-zero. -/
def in_words_list (num : ℤ) : List String :=
  let lakh := num.fdiv 100000
  let n1 := num % 100000
  let thousand := n1.fdiv 1000
  let n2 := n1 % 1000
  let hundred := n2.fdiv 100
  let remainder := n2 % 100
  let w1 : List String := if 0 < lakh then [get_unit_word lakh ++ " lakh"] else []
  let w2 := w1 ++ (if 0 < thousand then [get_unit_word thousand ++ " thousand"] else [])
  let w3 := w2 ++ (if 0 < hundred then [get_unit_word hundred ++ " hundred"] else [])
  if 0 < remainder then
    (if 0 < w3.length ∧ (0 < lakh ∨ 0 < thousand ∨ 0 < hundred)
      then w3 ++ ["and"] else w3) ++ [get_unit_word remainder]
  else w3

/-- `get_full_word` (src/app.py lines 46-68): `"zero"` for 0, otherwise
`' '.join(filter(None, in_words))`. -/
def get_full_word (num : ℤ) : String :=
  if num = 0 then "zero"
  else pyjoin " " ((in_words_list num).filter (fun w => w ≠ ""))

/-- The word-assembly tail of `number_to_words` (src/app.py lines 76-81),
as a function of the already computed rupee and paise integers: suffix
selection then `strip().capitalize()`. -/
def wordsOf (amount_in_rupees amount_in_paise : ℤ) : String :=
  let words := get_full_word amount_in_rupees
  let words :=
    if 0 < amount_in_paise then
      words ++ " and " ++ get_full_word amount_in_paise ++ " paise only"
    else words ++ " only"
  pycap (pystrip words)

/-- Body of `number_to_words` after the `float` coercion succeeded
(src/app.py lines 74-81): `amount_in_rupees = math.floor(number)`,
`amount_in_paise = round((number - amount_in_rupees) * 100)`, then the
word assembly. -/
def convertRat (number : ℚ) : String :=
  wordsOf ⌊number⌋ (rhe ((number - ((⌊number⌋ : ℤ) : ℚ)) * 100))

/-- A value reaching `number_to_words`: the route passes a float
(`total_amount`), and string inputs are accepted via `float(str)`. -/
inductive PyValue where
  | num (q : ℚ)
  | str (s : String)
deriving DecidableEq

def digitsVal (l : List Char) : ℕ :=
  l.foldl (fun a c => a * 10 + (c.toNat - 48)) 0

/-- Model of the Python builtin `float` on strings: accepts optionally
signed decimal literals with surrounding whitespace, returns `none`
exactly where `float` raises `ValueError`.  (Scientific notation and
inf/nan, which have no exact rational meaning, are not modelled.) -/
def parseDecimal (s : String) : Option ℚ :=
  let t := (pystrip s).data
  let body : List Char :=
    match t with
    | '-' :: rest => rest
    | '+' :: rest => rest
    | _ => t
  let sign : ℚ := match t with | '-' :: _ => -1 | _ => 1
  let ip := body.takeWhile (fun c => c ≠ '.')
  let rest := body.dropWhile (fun c => c ≠ '.')
  match rest with
  | [] =>
      if ip ≠ [] ∧ ip.all Char.isDigit then
        some (sign * (digitsVal ip : ℚ))
      else none
  | _ :: fp =>
      if (ip ≠ [] ∨ fp ≠ []) ∧ ip.all Char.isDigit ∧ fp.all Char.isDigit then
        some (sign * ((digitsVal ip : ℚ)
          + (digitsVal fp : ℚ) / (10 ^ fp.length)))
      else none

/-- `float(number)` as used at src/app.py line 71. -/
def pyFloat : PyValue → Option ℚ
  | .num q => some q
  | .str s => parseDecimal s

/-- `number_to_words` (src/app.py lines 26-81): the `try: float(...)
except ValueError: return "Invalid amount"` guard, then the word
conversion. -/
def number_to_words (v : PyValue) : String :=
  match pyFloat v with
  | none => "Invalid amount"
  | some number => convertRat number

/-! ### `fetch_order_data_from_api` (src/app.py lines 83-177) -/

/-- A WooCommerce line item as read at src/app.py lines 105-110:
`name`, `quantity` (int), `price` (float), `subtotal` (the net,
before-tax line amount, a float). -/
structure LineItem where
  name : String
  quantity : ℤ
  price : ℚ
  subtotal : ℚ
deriving DecidableEq

/-- A billing or shipping sub-record; each field read via
`.get(key, default)` at src/app.py lines 154-160, so every field may be
absent. -/
structure Party where
  first_name : Option String
  last_name : Option String
  company : Option String
  address_1 : Option String
  address_2 : Option String
  city : Option String
  state : Option String
  postcode : Option String
  country : Option String
deriving DecidableEq

/-- The order payload fields of `response.json()` that
`fetch_order_data_from_api` reads.  A payload whose required fields
(`total`, `total_tax`, `date_created`, the per-item keys) are missing or
malformed raises inside the `try` block in the source; that execution is
represented by `FetchOutcome.otherError` below, so `OrderRecord` holds
already well-formed data. -/
structure OrderRecord where
  number : Option String
  date_created : String
  total : ℚ
  total_tax : ℚ
  billing : Party
  shipping : Party
  line_items : List LineItem
deriving DecidableEq

/-- `cgst_rate` (src/app.py line 102). -/
def cgst_rate : ℚ := 0.025

/-- `sgst_rate` (src/app.py line 103). -/
def sgst_rate : ℚ := 0.025

/-- One entry of the `items` list (src/app.py lines 120-131). -/
structure DerivedItem where
  description : String
  hsn_sac : String
  quantity : ℤ
  rate : ℚ
  cgst_rate : ℚ
  sgst_rate : ℚ
  amount : ℚ
  cgst_amount : ℚ
  sgst_amount : ℚ
  total : ℚ
deriving DecidableEq

/-- One iteration of the `for item in order.get('line_items', [])` loop
(src/app.py lines 105-135); the accumulator carries
(`items`, `subtotal`, `total_cgst`, `total_sgst`). -/
def processItem (acc : List DerivedItem × ℚ × ℚ × ℚ) (item : LineItem) :
    List DerivedItem × ℚ × ℚ × ℚ :=
  let quantity := item.quantity
  let rate := item.price
  let amount := item.subtotal
  let cgst_amount := amount * cgst_rate
  let sgst_amount := amount * sgst_rate
  let total_item_amount := amount + cgst_amount + sgst_amount
  let hsn_sac := "N/A"
  let d : DerivedItem :=
    { description := item.name
      hsn_sac := hsn_sac
      quantity := quantity
      rate := round2 rate
      cgst_rate := cgst_rate
      sgst_rate := sgst_rate
      amount := round2 amount
      cgst_amount := round2 cgst_amount
      sgst_amount := round2 sgst_amount
      total := round2 total_item_amount }
  (acc.1 ++ [d], acc.2.1 + amount, acc.2.2.1 + cgst_amount, acc.2.2.2 + sgst_amount)

/-- The dictionary returned on success (src/app.py lines 150-169). -/
structure InvoiceData where
  invoice_number : String
  invoice_date : String
  due_date : String
  place_of_supply : String
  client_name : String
  client_company : String
  client_address : String
  client_gstin : String
  ship_to_name : String
  ship_to_address : String
  ship_to_gstin : String
  items : List DerivedItem
  subtotal : ℚ
  total_cgst : ℚ
  total_sgst : ℚ
  total_amount : ℚ
  rounding : ℚ
  total_in_words : String
deriving DecidableEq

/-- `datetime.strptime(order['date_created'].split('T')[0], '%Y-%m-%d')`
followed by `.strftime('%d/%m/%Y')` (src/app.py lines 143-144), for the
zero-padded ISO dates WooCommerce emits; a malformed date raises in the
source and is represented by `FetchOutcome.otherError`. -/
def formatDate (s : String) : String :=
  match ((s.splitOn "T").headD "").splitOn "-" with
  | [y, m, d] => d ++ "/" ++ m ++ "/" ++ y
  | _ => ""

/-- The address f-string of src/app.py lines 157 and 160:
`f"{address_1}, {address_2}, {city}, {state} {postcode}, {country}"`
with each missing sub-field read as `''`, then `.strip()`. -/
def mkAddress (p : Party) : String :=
  pystrip ((p.address_1.getD "") ++ ", " ++ (p.address_2.getD "") ++ ", "
    ++ (p.city.getD "") ++ ", " ++ (p.state.getD "") ++ " "
    ++ (p.postcode.getD "") ++ ", " ++ (p.country.getD ""))

/-- The successful body of `fetch_order_data_from_api`
(src/app.py lines 93-169): the per-line loop, the aggregate fields, the
rounding reconciliation and the display fields. -/
def buildInvoiceData (order_id : String) (order : OrderRecord) : InvoiceData :=
  let acc := order.line_items.foldl processItem ([], 0, 0, 0)
  let items := acc.1
  let subtotal := acc.2.1
  let total_cgst := acc.2.2.1
  let total_sgst := acc.2.2.2
  let total_amount := order.total
  let total_tax := order.total_tax
  let rounding := total_amount - (subtotal + total_tax)
  let invoice_date_formatted := formatDate order.date_created
  let billing := order.billing
  let shipping := order.shipping
  { invoice_number := order.number.getD order_id
    invoice_date := invoice_date_formatted
    due_date := invoice_date_formatted
    place_of_supply := billing.state.getD "N/A"
    client_name := pystrip ((billing.first_name.getD "") ++ " "
      ++ (billing.last_name.getD ""))
    client_company := billing.company.getD "N/A"
    client_address := mkAddress billing
    client_gstin := "N/A"
    ship_to_name := pystrip ((shipping.first_name.getD "") ++ " "
      ++ (shipping.last_name.getD ""))
    ship_to_address := mkAddress shipping
    ship_to_gstin := "N/A"
    items := items
    subtotal := round2 subtotal
    total_cgst := round2 total_cgst
    total_sgst := round2 total_sgst
    total_amount := order.total
    rounding := round2 rounding
    total_in_words := convertRat total_amount }

/-- How the `try` body of `fetch_order_data_from_api` terminates: either
the whole body ran (`ok`, carrying the parsed order), or
`raise_for_status` raised `requests.exceptions.HTTPError` for an error
status, or some other exception was raised (connection failure, missing
key, malformed number or date, ...). -/
inductive FetchOutcome where
  | ok (order : OrderRecord)
  | httpError (status : ℕ)
  | otherError
deriving DecidableEq

/-- The three values `fetch_order_data_from_api` can return: the invoice
dict, the `"Order Not Found"` sentinel, or `None`. -/
inductive FetchResult where
  | success (data : InvoiceData)
  | orderNotFound
  | fetchFailure
deriving DecidableEq

/-- `fetch_order_data_from_api` (src/app.py lines 83-177): the dispatch
of the `try`/`except` ladder on how the body terminated.  An
`HTTPError` with status 404 returns `"Order Not Found"`; any other
`HTTPError`, and any other exception, returns `None`. -/
def fetch_order_data_from_api (order_id : String) (outcome : FetchOutcome) :
    FetchResult :=
  match outcome with
  | .ok order => .success (buildInvoiceData order_id order)
  | .httpError status =>
      if status = 404 then .orderNotFound else .fetchFailure
  | .otherError => .fetchFailure

/-! ### Helper lemmas -/

/-- The `DerivedItem` produced for a single line item, spelling out the
accumulator-independent content of one loop iteration. -/
def deriveLine (item : LineItem) : DerivedItem :=
  { description := item.name
    hsn_sac := "N/A"
    quantity := item.quantity
    rate := round2 item.price
    cgst_rate := cgst_rate
    sgst_rate := sgst_rate
    amount := round2 item.subtotal
    cgst_amount := round2 (item.subtotal * cgst_rate)
    sgst_amount := round2 (item.subtotal * sgst_rate)
    total := round2 (item.subtotal + item.subtotal * cgst_rate
      + item.subtotal * sgst_rate) }

lemma processItem_eq (acc : List DerivedItem × ℚ × ℚ × ℚ) (item : LineItem) :
    processItem acc item =
      (acc.1 ++ [deriveLine item], acc.2.1 + item.subtotal,
       acc.2.2.1 + item.subtotal * cgst_rate,
       acc.2.2.2 + item.subtotal * sgst_rate) := rfl

lemma foldl_processItem (l : List LineItem) (is : List DerivedItem)
    (s c g : ℚ) :
    List.foldl processItem (is, s, c, g) l =
      (is ++ l.map deriveLine,
       s + (l.map (fun i => i.subtotal)).sum,
       c + (l.map (fun i => i.subtotal * cgst_rate)).sum,
       g + (l.map (fun i => i.subtotal * sgst_rate)).sum) := by
  induction l generalizing is s c g with
  | nil => simp
  | cons a t ih =>
      simp only [List.foldl_cons, List.map_cons, List.sum_cons]
      rw [processItem_eq, ih]
      simp [add_assoc]

/-- `buildInvoiceData` with the item loop replaced by its closed form. -/
lemma buildInvoiceData_def (order_id : String) (o : OrderRecord) :
    buildInvoiceData order_id o =
      { invoice_number := o.number.getD order_id
        invoice_date := formatDate o.date_created
        due_date := formatDate o.date_created
        place_of_supply := o.billing.state.getD "N/A"
        client_name := pystrip ((o.billing.first_name.getD "") ++ " "
          ++ (o.billing.last_name.getD ""))
        client_company := o.billing.company.getD "N/A"
        client_address := mkAddress o.billing
        client_gstin := "N/A"
        ship_to_name := pystrip ((o.shipping.first_name.getD "") ++ " "
          ++ (o.shipping.last_name.getD ""))
        ship_to_address := mkAddress o.shipping
        ship_to_gstin := "N/A"
        items := o.line_items.map deriveLine
        subtotal := round2 ((o.line_items.map (fun i => i.subtotal)).sum)
        total_cgst :=
          round2 ((o.line_items.map (fun i => i.subtotal * cgst_rate)).sum)
        total_sgst :=
          round2 ((o.line_items.map (fun i => i.subtotal * sgst_rate)).sum)
        total_amount := o.total
        rounding := round2 (o.total
          - ((o.line_items.map (fun i => i.subtotal)).sum + o.total_tax))
        total_in_words := convertRat o.total } := by
  unfold buildInvoiceData
  rw [foldl_processItem]
  simp

lemma rhe_zero : rhe 0 = 0 := by
  unfold rhe
  norm_num

lemma round2_zero : round2 0 = 0 := by
  unfold round2
  rw [zero_mul, rhe_zero]
  norm_num

lemma convertRat_eval (q : ℚ) (r p : ℤ) (h1 : ⌊q⌋ = r)
    (h2 : rhe ((q - (r : ℚ)) * 100) = p) : convertRat q = wordsOf r p := by
  unfold convertRat
  rw [h1, h2]

lemma convertRat_nat (q : ℚ) (r : ℤ) (h1 : ⌊q⌋ = r)
    (h2 : (q - (r : ℚ)) * 100 = 0) : convertRat q = wordsOf r 0 :=
  convertRat_eval q r 0 h1 (by rw [h2]; exact rhe_zero)

lemma number_to_words_num (q : ℚ) :
    number_to_words (.num q) = convertRat q := rfl

/-! ### Claims -/

/-- C1: for every order record, the derived rounding field equals
`round(total_amount - (subtotal + total_tax), 2)` with `subtotal` the
unrounded sum of the line items' net amounts and `total_amount`,
`total_tax` the source-reported fields; when the reported total equals
`subtotal + total_tax` exactly, the rounding field is 0. -/
theorem rounding_matches_reported_delta (order_id : String)
    (o : OrderRecord) :
    (buildInvoiceData order_id o).rounding
      = round2 (o.total
          - ((o.line_items.map (fun i => i.subtotal)).sum + o.total_tax))
    ∧ (o.total = (o.line_items.map (fun i => i.subtotal)).sum + o.total_tax →
        (buildInvoiceData order_id o).rounding = 0) := by
  have h : (buildInvoiceData order_id o).rounding
      = round2 (o.total
          - ((o.line_items.map (fun i => i.subtotal)).sum + o.total_tax)) := by
    rw [buildInvoiceData_def]
  exact ⟨h, fun hd => by rw [h, hd, sub_self, round2_zero]⟩

theorem rounding_matches_reported_delta_witness :
    (buildInvoiceData "7"
      { number := none
        date_created := "2024-01-02T03:04:05"
        total := 1000 + 50
        total_tax := 50
        billing := ⟨none, none, none, none, none, none, none, none, none⟩
        shipping := ⟨none, none, none, none, none, none, none, none, none⟩
        line_items :=
          [{ name := "Widget", quantity := 2, price := 500,
             subtotal := 1000 }] }).rounding = 0 :=
  (rounding_matches_reported_delta "7" _).2 (by simp)

/-- C2: the produced invoice view's `total_amount` is the order's
source-reported total, independent of the line items. -/
theorem total_amount_is_source_reported (order_id : String)
    (o : OrderRecord) :
    (buildInvoiceData order_id o).total_amount = o.total
    ∧ ∀ items2 : List LineItem,
        (buildInvoiceData order_id
          { o with line_items := items2 }).total_amount = o.total :=
  ⟨rfl, fun _ => rfl⟩

/-- C3: the deriver always returns exactly one of a success view, the
distinguished not-found result, or the distinguished generic-failure
result; a 404-equivalent HTTP error maps to not-found, every other error
to the generic failure, and the two failure results are distinct. -/
theorem deriver_returns_tagged_result (order_id : String)
    (outcome : FetchOutcome) :
    ((∃ d, fetch_order_data_from_api order_id outcome = .success d)
      ∨ fetch_order_data_from_api order_id outcome = .orderNotFound
      ∨ fetch_order_data_from_api order_id outcome = .fetchFailure)
    ∧ fetch_order_data_from_api order_id (.httpError 404) = .orderNotFound
    ∧ (∀ s : ℕ, s ≠ 404 →
        fetch_order_data_from_api order_id (.httpError s) = .fetchFailure)
    ∧ fetch_order_data_from_api order_id .otherError = .fetchFailure
    ∧ FetchResult.orderNotFound ≠ FetchResult.fetchFailure := by
  refine ⟨?_, rfl, ?_, rfl, by simp⟩
  · cases outcome with
    | ok o => exact Or.inl ⟨_, rfl⟩
    | httpError s =>
        by_cases h : s = 404
        · exact Or.inr (Or.inl (by simp [fetch_order_data_from_api, h]))
        · exact Or.inr (Or.inr (by simp [fetch_order_data_from_api, h]))
    | otherError => exact Or.inr (Or.inr rfl)
  · intro s hs
    simp [fetch_order_data_from_api, hs]

theorem deriver_returns_tagged_result_witness :
    fetch_order_data_from_api "9" (.httpError 500) = .fetchFailure
    ∧ fetch_order_data_from_api "9" (.httpError 404) = .orderNotFound :=
  ⟨(deriver_returns_tagged_result "9" (.httpError 500)).2.2.1 500 (by decide),
   (deriver_returns_tagged_result "9" (.httpError 404)).2.1⟩

/-- C4: each derived line has `cgst_amount` and `sgst_amount` equal to
the net amount times the fixed 0.025 rates, line total
`net + cgst + sgst`, every monetary output rounded to 2 digits at the
point the `DerivedItem` is produced, while `subtotal`, `total_cgst` and
`total_sgst` are accumulated from the unrounded per-line values and
rounded only in the final aggregate fields. -/
theorem per_line_tax_and_aggregates (order_id : String) (o : OrderRecord) :
    (buildInvoiceData order_id o).items = o.line_items.map deriveLine
    ∧ (∀ item : LineItem,
        (deriveLine item).cgst_amount = round2 (item.subtotal * 0.025)
        ∧ (deriveLine item).sgst_amount = round2 (item.subtotal * 0.025)
        ∧ (deriveLine item).total
            = round2 (item.subtotal + item.subtotal * 0.025
                + item.subtotal * 0.025)
        ∧ (deriveLine item).amount = round2 item.subtotal
        ∧ (deriveLine item).rate = round2 item.price)
    ∧ (buildInvoiceData order_id o).subtotal
        = round2 ((o.line_items.map (fun i => i.subtotal)).sum)
    ∧ (buildInvoiceData order_id o).total_cgst
        = round2 ((o.line_items.map (fun i => i.subtotal * 0.025)).sum)
    ∧ (buildInvoiceData order_id o).total_sgst
        = round2 ((o.line_items.map (fun i => i.subtotal * 0.025)).sum) := by
  refine ⟨?_, fun item => ⟨rfl, rfl, rfl, rfl, rfl⟩, ?_, ?_, ?_⟩
  · rw [buildInvoiceData_def]
  · rw [buildInvoiceData_def]
  · rw [buildInvoiceData_def]; rfl
  · rw [buildInvoiceData_def]; rfl

/-- C7: an input on which the numeric coercion fails yields the
sentinel string `"Invalid amount"` instead of an exception. -/
theorem invalid_input_sentinel (v : PyValue) (h : pyFloat v = none) :
    number_to_words v = "Invalid amount" := by
  unfold number_to_words
  rw [h]

theorem invalid_input_sentinel_witness :
    pyFloat (.str "twelve rupees") = none
    ∧ number_to_words (.str "twelve rupees") = "Invalid amount" :=
  ⟨by decide, invalid_input_sentinel _ (by decide)⟩

/-- C9: derivation is total on orders with missing optional billing
sub-fields: a missing company falls back to the `"N/A"` placeholder, a
present one is used as-is, and the address concatenation reads every
missing sub-field as the empty string while keeping the `", "` and
whitespace separators, trimming only the ends (pinned by the literal
all-fields-missing fixture `", , ,  ,"`). -/
theorem missing_billing_defaults (order_id : String) (o : OrderRecord) :
    (o.billing.company = none →
      (buildInvoiceData order_id o).client_company = "N/A")
    ∧ (∀ s, o.billing.company = some s →
        (buildInvoiceData order_id o).client_company = s)
    ∧ (buildInvoiceData order_id o).client_address = mkAddress o.billing
    ∧ (o.billing.address_1 = none → o.billing.address_2 = none →
        o.billing.city = none → o.billing.state = none →
        o.billing.postcode = none → o.billing.country = none →
        (buildInvoiceData order_id o).client_address = ", , ,  ,") := by
  have hc : (buildInvoiceData order_id o).client_company
      = o.billing.company.getD "N/A" := rfl
  have ha : (buildInvoiceData order_id o).client_address
      = mkAddress o.billing := rfl
  refine ⟨fun h => by rw [hc, h]; rfl, fun s h => by rw [hc, h]; rfl, ha, ?_⟩
  intro h1 h2 h3 h4 h5 h6
  rw [ha]
  unfold mkAddress
  rw [h1, h2, h3, h4, h5, h6]
  decide

theorem missing_billing_defaults_witness :
    (buildInvoiceData "9"
      { number := some "INV/10"
        date_created := "2024-03-04T00:00:00"
        total := 0
        total_tax := 0
        billing := ⟨none, none, none, none, none, none, none, none, none⟩
        shipping := ⟨none, none, none, none, none, none, none, none, none⟩
        line_items := [] }).client_company = "N/A"
    ∧ (buildInvoiceData "9"
      { number := some "INV/10"
        date_created := "2024-03-04T00:00:00"
        total := 0
        total_tax := 0
        billing := ⟨none, none, none, none, none, none, none, none, none⟩
        shipping := ⟨none, none, none, none, none, none, none, none, none⟩
        line_items := [] }).client_address = ", , ,  ," :=
  ⟨(missing_billing_defaults "9" _).1 rfl,
   (missing_billing_defaults "9" _).2.2.2 rfl rfl rfl rfl rfl rfl⟩

/-- C10: the per-group lookup returns the empty string for any group
value of 100 or more, so a lakh count of 100 (integer part 10,000,000)
silently loses its digits: `convert(10000000)` renders as
`"Lakh only"`. -/
theorem lakh_count_ceiling :
    (∀ n : ℤ, 100 ≤ n → get_unit_word n = "")
    ∧ number_to_words (.num 10000000) = "Lakh only" := by
  constructor
  · intro n hn
    unfold get_unit_word
    split_ifs <;> first | omega | rfl
  · rw [number_to_words_num,
      convertRat_nat 10000000 10000000 (by norm_num) (by norm_num)]
    decide

theorem lakh_count_ceiling_witness :
    get_unit_word 100 = "" ∧ get_unit_word 4500000 = "" :=
  ⟨lakh_count_ceiling.1 100 (by decide),
   lakh_count_ceiling.1 4500000 (by decide)⟩

/-! ### The word-joining rule (C5) -/

/-- The lakh group extracted at src/app.py line 51. -/
def lakhOf (num : ℤ) : ℤ := num.fdiv 100000

/-- The thousand group extracted at src/app.py line 55. -/
def thousandOf (num : ℤ) : ℤ := (num % 100000).fdiv 1000

/-- The hundred group extracted at src/app.py line 59. -/
def hundredOf (num : ℤ) : ℤ := ((num % 100000) % 1000).fdiv 100

/-- The final 0-99 remainder left at src/app.py line 63. -/
def remainderOf (num : ℤ) : ℤ := ((num % 100000) % 1000) % 100

lemma guw_ne_and_nat :
    ∀ m : ℕ, m < 100 → get_unit_word (m : ℤ) ≠ "and" := by decide

lemma and_ne_append_long (x y : String) (hy : 4 ≤ y.length) :
    "and" ≠ x ++ y := by
  intro h
  have hl := congrArg String.length h
  rw [String.length_append] at hl
  have h3 : ("and" : String).length = 3 := rfl
  omega

lemma and_ne_guw (n : ℤ) : "and" ≠ get_unit_word n := by
  by_cases h : 0 ≤ n ∧ n < 100
  · have h2 := guw_ne_and_nat n.toNat (by omega)
    rw [Int.toNat_of_nonneg h.1] at h2
    exact fun hc => h2 hc.symm
  · unfold get_unit_word
    split_ifs <;> first | omega | decide

lemma in_words_list_eq (num : ℤ) :
    in_words_list num =
      (if 0 < lakhOf num
        then [get_unit_word (lakhOf num) ++ " lakh"] else [])
      ++ (if 0 < thousandOf num
        then [get_unit_word (thousandOf num) ++ " thousand"] else [])
      ++ (if 0 < hundredOf num
        then [get_unit_word (hundredOf num) ++ " hundred"] else [])
      ++ (if 0 < remainderOf num then
            (if 0 < lakhOf num ∨ 0 < thousandOf num ∨ 0 < hundredOf num
              then ["and"] else [])
            ++ [get_unit_word (remainderOf num)]
          else []) := by
  unfold in_words_list lakhOf thousandOf hundredOf remainderOf
  by_cases hl : 0 < num.fdiv 100000 <;>
    by_cases ht : 0 < (num % 100000).fdiv 1000 <;>
    by_cases hh : 0 < ((num % 100000) % 1000).fdiv 100 <;>
    by_cases hr : 0 < ((num % 100000) % 1000) % 100 <;>
    simp [hl, ht, hh, hr]

lemma and_mem_iff (num : ℤ) :
    "and" ∈ in_words_list num ↔
      0 < remainderOf num
      ∧ (0 < lakhOf num ∨ 0 < thousandOf num ∨ 0 < hundredOf num) := by
  rw [in_words_list_eq]
  have g1 : ∀ x : String, "and" ≠ x ++ " lakh" :=
    fun x => and_ne_append_long x " lakh" (by decide)
  have g2 : ∀ x : String, "and" ≠ x ++ " thousand" :=
    fun x => and_ne_append_long x " thousand" (by decide)
  have g3 : ∀ x : String, "and" ≠ x ++ " hundred" :=
    fun x => and_ne_append_long x " hundred" (by decide)
  by_cases hl : 0 < lakhOf num <;>
    by_cases ht : 0 < thousandOf num <;>
    by_cases hh : 0 < hundredOf num <;>
    by_cases hr : 0 < remainderOf num <;>
    simp [hl, ht, hh, hr, g1 _, g2 _, g3 _, and_ne_guw _]

/-- C5: in the word conversion the literal word `"and"` is inserted
before the final 0-99 remainder's words exactly when that remainder is
non-zero and some higher (lakh, thousand or hundred) group is non-zero;
`convert(100)` has no `"and"`, `convert(101)` has one, and
`convert(100000)` is a single lakh group. -/
theorem and_insertion_rule (num : ℤ) :
    ("and" ∈ in_words_list num ↔
      0 < remainderOf num
      ∧ (0 < lakhOf num ∨ 0 < thousandOf num ∨ 0 < hundredOf num))
    ∧ number_to_words (.num 100) = "One hundred only"
    ∧ number_to_words (.num 101) = "One hundred and one only"
    ∧ number_to_words (.num 100000) = "One lakh only" := by
  refine ⟨and_mem_iff num, ?_, ?_, ?_⟩
  · rw [number_to_words_num, convertRat_nat 100 100 (by norm_num) (by norm_num)]
    decide
  · rw [number_to_words_num, convertRat_nat 101 101 (by norm_num) (by norm_num)]
    decide
  · rw [number_to_words_num,
      convertRat_nat 100000 100000 (by norm_num) (by norm_num)]
    decide

theorem and_insertion_rule_witness :
    "and" ∈ in_words_list 101 ∧ "and" ∉ in_words_list 100 :=
  ⟨(and_insertion_rule 101).1.mpr (by decide),
   fun hm => by
    have h2 := (and_insertion_rule 100).1.mp hm
    revert h2
    decide⟩

/-! ### The paise suffix and the missing carry (C6, C8) -/

lemma wordsOf_pos (r p : ℤ) (hp : 0 < p) :
    wordsOf r p = pycap (pystrip (get_full_word r ++ " and "
      ++ get_full_word p ++ " paise only")) := by
  show pycap (pystrip (if 0 < p
      then get_full_word r ++ " and " ++ get_full_word p ++ " paise only"
      else get_full_word r ++ " only")) = _
  rw [if_pos hp]

lemma wordsOf_nonpos (r p : ℤ) (hp : ¬ 0 < p) :
    wordsOf r p = pycap (pystrip (get_full_word r ++ " only")) := by
  show pycap (pystrip (if 0 < p
      then get_full_word r ++ " and " ++ get_full_word p ++ " paise only"
      else get_full_word r ++ " only")) = _
  rw [if_neg hp]

lemma rhe_99995 :
    rhe (((99995/1000 : ℚ) - ((⌊(99995/1000 : ℚ)⌋ : ℤ) : ℚ)) * 100) = 100 := by
  rw [show ⌊(99995/1000 : ℚ)⌋ = 99 from by norm_num,
    show (((99995/1000 : ℚ) - ((99 : ℤ) : ℚ)) * 100) = 199/2 from by norm_num]
  unfold rhe
  norm_num

/-- C6: the converter truncates the integer part independently of the
rounded fractional part and performs no carry when the subunits round up
to 100: whenever the scaled fractional remainder rounds to 100 the
output is the words of the truncated integer part followed by
`" and one hundred paise only"`, as 99.995 shows. -/
theorem no_paise_carry :
    (∀ a : ℚ, rhe ((a - ((⌊a⌋ : ℤ) : ℚ)) * 100) = 100 →
        convertRat a = pycap (pystrip
          (get_full_word ⌊a⌋ ++ " and one hundred paise only")))
    ∧ number_to_words (.num (99995/1000))
        = "Ninety nine and one hundred paise only"
    ∧ ⌊(99995/1000 : ℚ)⌋ = 99 := by
  refine ⟨?_, ?_, by norm_num⟩
  · intro a h
    rw [convertRat_eval a ⌊a⌋ 100 rfl h, wordsOf_pos _ _ (by decide),
      show get_full_word 100 = "one hundred" from by decide,
      String.append_assoc, String.append_assoc,
      show (" and " : String) ++ ("one hundred" ++ " paise only")
        = " and one hundred paise only" from by decide]
  · rw [number_to_words_num, convertRat_eval (99995/1000) 99 100
      (by norm_num)
      (by
        rw [show (((99995/1000 : ℚ) - ((99 : ℤ) : ℚ)) * 100) = 199/2
          from by norm_num]
        unfold rhe
        norm_num)]
    decide

theorem no_paise_carry_witness :
    convertRat (99995/1000) = pycap (pystrip
      (get_full_word ⌊(99995/1000 : ℚ)⌋ ++ " and one hundred paise only")) :=
  no_paise_carry.1 (99995/1000) rhe_99995

lemma dropWhile_ws_append (x y : List Char)
    (hx : ∃ c ∈ x, c.isWhitespace = false) :
    ∃ c t, x.dropWhile Char.isWhitespace = c :: t
      ∧ c.isWhitespace = false
      ∧ (x ++ y).dropWhile Char.isWhitespace = c :: (t ++ y) := by
  induction x with
  | nil => simp at hx
  | cons a l ih =>
      by_cases ha : a.isWhitespace = true
      · have hx' : ∃ c ∈ l, c.isWhitespace = false := by
          rcases hx with ⟨c, hc, hw⟩
          rcases List.mem_cons.mp hc with h | h
          · subst h
            rw [ha] at hw
            cases hw
          · exact ⟨c, h, hw⟩
        rcases ih hx' with ⟨c, t, h1, h2, h3⟩
        refine ⟨c, t, ?_, h2, ?_⟩
        · rw [List.dropWhile_cons, if_pos ha, h1]
        · rw [List.cons_append, List.dropWhile_cons, if_pos ha, h3]
      · refine ⟨a, l, ?_, by simpa using ha, ?_⟩
        · rw [List.dropWhile_cons, if_neg ha]
        · rw [List.cons_append, List.dropWhile_cons, if_neg ha]

lemma strip_right_nonws (V : List Char) (d : Char)
    (hd : d.isWhitespace = false) :
    ((V ++ [d]).reverse.dropWhile Char.isWhitespace).reverse = V ++ [d] := by
  rw [show (V ++ [d]).reverse = d :: V.reverse from by simp]
  rw [List.dropWhile_cons, if_neg (by simp [hd])]
  simp

lemma pystrip_shape (s : String) (g mid : List Char)
    (hs : s.data = g ++ (mid ++ ['o', 'n', 'l', 'y']))
    (hg : ∃ c ∈ g, c.isWhitespace = false) :
    ∃ c t, c.isWhitespace = false
      ∧ (pystrip s).data = c :: (t ++ (mid ++ ['o', 'n', 'l', 'y'])) := by
  obtain ⟨c, t, _, h2, h3⟩ :=
    dropWhile_ws_append g (mid ++ ['o', 'n', 'l', 'y']) hg
  refine ⟨c, t, h2, ?_⟩
  show (((s.data.dropWhile Char.isWhitespace).reverse.dropWhile
    Char.isWhitespace).reverse) = _
  rw [hs, h3]
  rw [show c :: (t ++ (mid ++ ['o', 'n', 'l', 'y']))
    = (c :: (t ++ (mid ++ ['o', 'n', 'l']))) ++ ['y'] from by simp]
  rw [strip_right_nonws _ 'y' (by decide)]

lemma pycap_data_cons (s : String) (c : Char) (r : List Char)
    (h : s.data = c :: r) :
    pycap s = String.mk (c.toUpper :: r.map Char.toLower) := by
  unfold pycap
  rw [h]

lemma mem_pyjoin (sep : String) (l : List String) (s : String)
    (hs : s ∈ l) (c : Char) (hc : c ∈ s.data) :
    c ∈ (pyjoin sep l).data := by
  induction l with
  | nil => simp at hs
  | cons x xs ih =>
      cases xs with
      | nil =>
          rcases List.mem_cons.mp hs with h | h
          · rw [h] at hc
            exact hc
          · simp at h
      | cons y ys =>
          rcases List.mem_cons.mp hs with h | h
          · show c ∈ (x ++ sep ++ pyjoin sep (y :: ys)).data
            rw [String.data_append, String.data_append]
            exact List.mem_append.mpr (Or.inl (List.mem_append.mpr
              (Or.inl (h ▸ hc))))
          · show c ∈ (x ++ sep ++ pyjoin sep (y :: ys)).data
            rw [String.data_append]
            exact List.mem_append.mpr (Or.inr (ih h))

lemma str_ne_empty_of_suffix_len (x y : String) (hy : 1 ≤ y.length) :
    x ++ y ≠ "" := by
  intro h
  have hl := congrArg String.length h
  rw [String.length_append] at hl
  have h0 : ("" : String).length = 0 := rfl
  omega

lemma iwl_lakh (num : ℤ) (h : 0 < lakhOf num) :
    ∃ rest, in_words_list num
      = (get_unit_word (lakhOf num) ++ " lakh") :: rest := by
  rw [in_words_list_eq, if_pos h]
  simp only [List.append_assoc, List.singleton_append]
  exact ⟨_, rfl⟩

lemma iwl_thousand (num : ℤ) (h0 : ¬ 0 < lakhOf num)
    (h : 0 < thousandOf num) :
    ∃ rest, in_words_list num
      = (get_unit_word (thousandOf num) ++ " thousand") :: rest := by
  rw [in_words_list_eq, if_neg h0, if_pos h]
  simp only [List.nil_append, List.append_assoc, List.singleton_append]
  exact ⟨_, rfl⟩

lemma iwl_hundred (num : ℤ) (h0 : ¬ 0 < lakhOf num)
    (h1 : ¬ 0 < thousandOf num) (h : 0 < hundredOf num) :
    ∃ rest, in_words_list num
      = (get_unit_word (hundredOf num) ++ " hundred") :: rest := by
  rw [in_words_list_eq, if_neg h0, if_neg h1, if_pos h]
  simp only [List.nil_append, List.append_assoc, List.singleton_append]
  exact ⟨_, rfl⟩

lemma iwl_remainder (num : ℤ) (h0 : ¬ 0 < lakhOf num)
    (h1 : ¬ 0 < thousandOf num) (h2 : ¬ 0 < hundredOf num)
    (h : 0 < remainderOf num) :
    in_words_list num = [get_unit_word (remainderOf num)] := by
  rw [in_words_list_eq, if_neg h0, if_neg h1, if_neg h2, if_pos h]
  simp [h0, h1, h2]

lemma guw_nat_nonws :
    ∀ m : ℕ, m < 100 → 0 < m →
      ((get_unit_word (m : ℤ)).data.any (fun c => !c.isWhitespace)) = true := by
  decide

lemma exists_nonws_of_mem_join (num : ℤ) (e : String) (rest : List String)
    (hnum : num ≠ 0)
    (hiwl : in_words_list num = e :: rest)
    (hne : e ≠ "") (c : Char) (hc : c ∈ e.data)
    (hw : c.isWhitespace = false) :
    ∃ c2 ∈ (get_full_word num).data, c2.isWhitespace = false := by
  refine ⟨c, ?_, hw⟩
  rw [get_full_word, if_neg hnum, hiwl, List.filter_cons,
    if_pos (by simpa using hne)]
  exact mem_pyjoin " " _ e (List.mem_cons_self _ _) c hc

lemma exists_nonws_gfw (r : ℤ) (hr : 0 ≤ r) :
    ∃ c ∈ (get_full_word r).data, c.isWhitespace = false := by
  rcases eq_or_lt_of_le hr with h0 | hpos
  · rw [← h0]
    decide
  · have hne : r ≠ 0 := by omega
    by_cases hl : 0 < lakhOf r
    · obtain ⟨rest, hrest⟩ := iwl_lakh r hl
      refine exists_nonws_of_mem_join r _ rest hne hrest
        (str_ne_empty_of_suffix_len _ " lakh" (by decide)) 'l' ?_ (by decide)
      rw [String.data_append]
      exact List.mem_append.mpr (Or.inr (by decide))
    by_cases ht : 0 < thousandOf r
    · obtain ⟨rest, hrest⟩ := iwl_thousand r hl ht
      refine exists_nonws_of_mem_join r _ rest hne hrest
        (str_ne_empty_of_suffix_len _ " thousand" (by decide)) 't' ?_
        (by decide)
      rw [String.data_append]
      exact List.mem_append.mpr (Or.inr (by decide))
    by_cases hh : 0 < hundredOf r
    · obtain ⟨rest, hrest⟩ := iwl_hundred r hl ht hh
      refine exists_nonws_of_mem_join r _ rest hne hrest
        (str_ne_empty_of_suffix_len _ " hundred" (by decide)) 'h' ?_
        (by decide)
      rw [String.data_append]
      exact List.mem_append.mpr (Or.inr (by decide))
    have hrm : 0 < remainderOf r := by
      unfold lakhOf at hl
      unfold thousandOf at ht
      unfold hundredOf at hh
      unfold remainderOf
      rw [Int.fdiv_eq_ediv _ (by omega : (0:ℤ) ≤ 100000)] at hl
      rw [Int.fdiv_eq_ediv _ (by omega : (0:ℤ) ≤ 1000)] at ht
      rw [Int.fdiv_eq_ediv _ (by omega : (0:ℤ) ≤ 100)] at hh
      omega
    have hrest := iwl_remainder r hl ht hh hrm
    have hbound : remainderOf r < 100 := by
      unfold remainderOf
      omega
    have hany := guw_nat_nonws (remainderOf r).toNat
      (by omega) (by omega)
    rw [Int.toNat_of_nonneg (by omega)] at hany
    obtain ⟨c, hc, hw⟩ := List.any_eq_true.mp hany
    have hw' : c.isWhitespace = false := by simpa using hw
    refine exists_nonws_of_mem_join r _ [] hne hrest ?_ c hc hw'
    intro he
    rw [he] at hc
    exact absurd hc (List.not_mem_nil c)

lemma only_suffix_wordsOf (r p : ℤ) (hr : 0 ≤ r) :
    ("only" : String).data <:+ (wordsOf r p).data := by
  have honly : ("only" : String).data = ['o', 'n', 'l', 'y'] := rfl
  by_cases hp : 0 < p
  · rw [wordsOf_pos r p hp, honly]
    obtain ⟨c, t, hcw, hd⟩ := pystrip_shape
      (get_full_word r ++ " and " ++ get_full_word p ++ " paise only")
      (get_full_word r).data
      ((" and " : String).data ++ ((get_full_word p).data
        ++ [' ', 'p', 'a', 'i', 's', 'e', ' ']))
      (by
        rw [String.data_append, String.data_append, String.data_append,
          show (" paise only" : String).data
            = [' ', 'p', 'a', 'i', 's', 'e', ' '] ++ ['o', 'n', 'l', 'y']
            from rfl]
        simp)
      (exists_nonws_gfw r hr)
    rw [pycap_data_cons _ c _ hd]
    show ['o', 'n', 'l', 'y'] <:+ (c.toUpper :: _)
    rw [List.map_append, List.map_append,
      show ['o', 'n', 'l', 'y'].map Char.toLower = ['o', 'n', 'l', 'y']
        from by decide]
    exact ⟨c.toUpper :: (t.map Char.toLower
      ++ ((" and " : String).data ++ ((get_full_word p).data
        ++ [' ', 'p', 'a', 'i', 's', 'e', ' '])).map Char.toLower), by simp⟩
  · rw [wordsOf_nonpos r p hp, honly]
    obtain ⟨c, t, hcw, hd⟩ := pystrip_shape
      (get_full_word r ++ " only") (get_full_word r).data [' ']
      (by
        rw [String.data_append,
          show (" only" : String).data = [' '] ++ ['o', 'n', 'l', 'y']
            from rfl])
      (exists_nonws_gfw r hr)
    rw [pycap_data_cons _ c _ hd]
    show ['o', 'n', 'l', 'y'] <:+ (c.toUpper :: _)
    rw [List.map_append, List.map_append,
      show ['o', 'n', 'l', 'y'].map Char.toLower = ['o', 'n', 'l', 'y']
        from by decide]
    exact ⟨c.toUpper :: (t.map Char.toLower ++ [' '].map Char.toLower),
      by simp⟩

/-- C8: on every non-negative amount the converter is deterministic and
its output ends in the word `"only"`; the suffix is
`" and <paise words> paise only"` exactly when the rounded subunit part
is positive and `" only"` otherwise, and amount 0 renders the zero
word. -/
theorem convert_deterministic_ends_only (a : ℚ) (h : 0 ≤ a) :
    number_to_words (.num a) = number_to_words (.num a)
    ∧ ("only" : String).data <:+ (number_to_words (.num a)).data
    ∧ (0 < rhe ((a - ((⌊a⌋ : ℤ) : ℚ)) * 100) →
        number_to_words (.num a)
          = pycap (pystrip (get_full_word ⌊a⌋ ++ " and "
              ++ get_full_word (rhe ((a - ((⌊a⌋ : ℤ) : ℚ)) * 100))
              ++ " paise only")))
    ∧ (rhe ((a - ((⌊a⌋ : ℤ) : ℚ)) * 100) ≤ 0 →
        number_to_words (.num a)
          = pycap (pystrip (get_full_word ⌊a⌋ ++ " only")))
    ∧ number_to_words (.num 0) = "Zero only" := by
  have hfloor : 0 ≤ ⌊a⌋ := Int.floor_nonneg.mpr h
  refine ⟨rfl, ?_, ?_, ?_, ?_⟩
  · rw [number_to_words_num]
    exact only_suffix_wordsOf ⌊a⌋ _ hfloor
  · intro hp
    rw [number_to_words_num]
    exact wordsOf_pos _ _ hp
  · intro hp
    rw [number_to_words_num]
    exact wordsOf_nonpos _ _ (Int.not_lt.mpr hp)
  · rw [number_to_words_num, convertRat_nat 0 0 (by norm_num) (by norm_num)]
    decide

theorem convert_deterministic_ends_only_witness :
    ("only" : String).data <:+ (number_to_words (.num 0)).data
    ∧ number_to_words (.num 0) = "Zero only" :=
  ⟨(convert_deterministic_ends_only 0 le_rfl).2.1,
   (convert_deterministic_ends_only 0 le_rfl).2.2.2.2⟩

end InvoiceSwift
